import Mathlib

/-!
Verification development for the getWork-run job-collection scheduler.

The Python source is embedded shallowly:
* python `dict`s become association lists (`lookupA` / `setAssoc` mirror
  `d.get(k)` / `d[k] = v`),
* wall-clock times and delays become rationals `ℚ`,
* calendar dates become `Nat` day indices,
* `random.uniform` draws and external call outcomes (database queries,
  `scrape_jobs` results) become explicit parameters of the embedded
  functions, with their ranges stated as hypotheses where a claim needs
  them,
* `hashlib.md5(...).hexdigest()` is abstracted as a `String → String`
  parameter; collision-freedom is stated as an injectivity hypothesis
  where a claim idealises the cryptographic hash.
-/

namespace GetWork

/-- Lookup in an association list, mirroring python `d.get(k)`. -/
def lookupA {κ α : Type} [DecidableEq κ] : List (κ × α) → κ → Option α
  | [], _ => none
  | p :: rest, k => if p.1 = k then some p.2 else lookupA rest k

/-- Update/insert in an association list, mirroring python `d[k] = v`. -/
def setAssoc {κ α : Type} [DecidableEq κ] : List (κ × α) → κ → α → List (κ × α)
  | [], k, v => [(k, v)]
  | p :: rest, k, v => if p.1 = k then (k, v) :: rest else p :: setAssoc rest k v

theorem lookupA_setAssoc_self {κ α : Type} [DecidableEq κ] (l : List (κ × α)) (k : κ) (v : α) :
    lookupA (setAssoc l k v) k = some v := by
  induction l with
  | nil => simp [setAssoc, lookupA]
  | cons p rest ih =>
    by_cases h : p.1 = k
    · simp [setAssoc, lookupA, h]
    · simp [setAssoc, lookupA, h, ih]

theorem lookupA_setAssoc_ne {κ α : Type} [DecidableEq κ] (l : List (κ × α)) (k k' : κ) (v : α)
    (h : k' ≠ k) : lookupA (setAssoc l k v) k' = lookupA l k' := by
  have hk : k ≠ k' := Ne.symm h
  induction l with
  | nil => simp [setAssoc, lookupA, hk]
  | cons p rest ih =>
    by_cases hp : p.1 = k
    · simp [setAssoc, lookupA, hp, hk]
    · simp [setAssoc, lookupA, hp, ih]

/-- Configuration fields of `CollectorConfig` used by the embedded core
(defaults as in the source). -/
structure CollectorConfig where
  min_delay_between_requests : ℚ := 15
  max_delay_between_requests : ℚ := 45
  max_searches_per_site_per_day : Nat := 200
  min_delay_between_sites : ℚ := 30
  max_retries : Nat := 3
  exponential_backoff_base : ℚ := 3/2
  batch_size : Nat := 100
  sites_priority : List String := ["indeed", "zip_recruiter"]
deriving DecidableEq

/-- Mutable state of the `RateLimiter` class. -/
structure RateLimiter where
  site_request_times : List (String × ℚ) := []
  daily_request_counts : List (Nat × List (String × Nat)) := []
  last_request_time : ℚ := 0
  blocked_until : List (String × ℚ) := []
deriving DecidableEq

/-- `RateLimiter.__init__`: empty dicts, `last_request_time = 0`. -/
def RateLimiter.init : RateLimiter := {}

/-- `{site: 0 for site in self.config.sites_priority}`. -/
def zeroCounts (sites : List String) : List (String × Nat) :=
  sites.map (fun s => (s, 0))

/-- Daily request count read for a site, mirroring
`self.daily_request_counts.get(today, {}).get(site, 0)`. -/
def dailyCount (rl : RateLimiter) (today : Nat) (site : String) : Nat :=
  (lookupA ((lookupA rl.daily_request_counts today).getD []) site).getD 0

/-- The lazy daily reset performed inline by `can_make_request`:
`if today not in self.daily_request_counts: self.daily_request_counts =
{today: {site: 0 for site in self.config.sites_priority}}` (the `elif` in
the source repeats the same condition and is dead). -/
def resetDaily (cfg : CollectorConfig) (rl : RateLimiter) (today : Nat) : RateLimiter :=
  if (lookupA rl.daily_request_counts today).isNone then
    { rl with daily_request_counts := [(today, zeroCounts cfg.sites_priority)] }
  else rl

/-- `RateLimiter.can_make_request`.  The current wall time and the current
day are passed explicitly.  The lazy daily reset mutates the state, so the
(possibly reset) state is returned alongside the decision. -/
def can_make_request (cfg : CollectorConfig) (rl : RateLimiter) (site : String) (now : ℚ)
    (today : Nat) : Bool × RateLimiter :=
  if (match lookupA rl.blocked_until site with
      | some t => decide (now < t)
      | none => false) then
    (false, rl)
  else
    if cfg.max_searches_per_site_per_day ≤ dailyCount (resetDaily cfg rl today) today site then
      (false, resetDaily cfg rl today)
    else if now - (resetDaily cfg rl today).last_request_time < cfg.min_delay_between_requests then
      (false, resetDaily cfg rl today)
    else (true, resetDaily cfg rl today)

/-- `RateLimiter.record_request`.  `block_duration` stands for the
`random.uniform(300, 900)` draw used when the request failed. -/
def record_request (rl : RateLimiter) (site : String) (success : Bool) (now : ℚ) (today : Nat)
    (block_duration : ℚ) : RateLimiter :=
  let counts := (lookupA rl.daily_request_counts today).getD []
  let counts := setAssoc counts site ((lookupA counts site).getD 0 + 1)
  let rl' : RateLimiter := { rl with
    daily_request_counts := setAssoc rl.daily_request_counts today counts
    last_request_time := now
    site_request_times := setAssoc rl.site_request_times site now }
  if success then rl'
  else { rl' with blocked_until := setAssoc rl.blocked_until site (now + block_duration) }

theorem lookupA_zeroCounts (sites : List String) (s : String) :
    (lookupA (zeroCounts sites) s).getD 0 = 0 := by
  induction sites with
  | nil => simp [zeroCounts, lookupA]
  | cons t rest ih =>
    by_cases h : t = s
    · simp [zeroCounts, lookupA, h]
    · simpa [zeroCounts, lookupA, h] using ih

/-- The lazy reset never changes a daily count: it only fires when the day
is absent, in which case every count is already zero. -/
theorem dailyCount_resetDaily (cfg : CollectorConfig) (rl : RateLimiter) (today : Nat)
    (s : String) : dailyCount (resetDaily cfg rl today) today s = dailyCount rl today s := by
  unfold resetDaily
  split
  next h =>
    have h0 : lookupA rl.daily_request_counts today = none := by
      cases hl : lookupA rl.daily_request_counts today with
      | none => rfl
      | some v => rw [hl] at h; simp at h
    simp [dailyCount, h0, lookupA, lookupA_zeroCounts]
  · rfl

/-- The state returned by `can_make_request` is the input state with at most
the lazy daily reset applied. -/
theorem can_make_request_snd (cfg : CollectorConfig) (rl : RateLimiter) (site : String)
    (now : ℚ) (today : Nat) :
    (can_make_request cfg rl site now today).2 = rl ∨
      (can_make_request cfg rl site now today).2 = resetDaily cfg rl today := by
  unfold can_make_request
  split
  · left; rfl
  · right
    split
    · rfl
    · split <;> rfl

/-- The admission check never changes any daily count. -/
theorem dailyCount_can_make_request (cfg : CollectorConfig) (rl : RateLimiter) (site : String)
    (now : ℚ) (today : Nat) (s : String) :
    dailyCount (can_make_request cfg rl site now today).2 today s = dailyCount rl today s := by
  rcases can_make_request_snd cfg rl site now today with h | h <;>
    simp [h, dailyCount_resetDaily]

/-- `record_request` bumps the recorded site's count for the day by one and
leaves every other site's count unchanged. -/
theorem dailyCount_record_request (rl : RateLimiter) (site : String) (success : Bool) (now : ℚ)
    (today : Nat) (blk : ℚ) (s : String) :
    dailyCount (record_request rl site success now today blk) today s =
      if site = s then dailyCount rl today s + 1 else dailyCount rl today s := by
  unfold record_request dailyCount
  have hmain :
      (lookupA
          ((lookupA
              (setAssoc rl.daily_request_counts today
                (setAssoc ((lookupA rl.daily_request_counts today).getD []) site
                  ((lookupA ((lookupA rl.daily_request_counts today).getD []) site).getD 0 + 1)))
              today).getD [])
          s).getD 0 =
        if site = s then
          (lookupA ((lookupA rl.daily_request_counts today).getD []) s).getD 0 + 1
        else (lookupA ((lookupA rl.daily_request_counts today).getD []) s).getD 0 := by
    rw [lookupA_setAssoc_self]
    by_cases h : site = s
    · subst h
      simp [lookupA_setAssoc_self]
    · simp [h, lookupA_setAssoc_ne _ _ _ _ (fun hh => h hh.symm)]
  split <;> simpa using hmain

/-- A granted admission implies the site's daily count is strictly below the
configured daily limit. -/
theorem can_make_request_lt_limit (cfg : CollectorConfig) (rl : RateLimiter) (site : String)
    (now : ℚ) (today : Nat) (h : (can_make_request cfg rl site now today).1 = true) :
    dailyCount rl today site < cfg.max_searches_per_site_per_day := by
  unfold can_make_request at h
  split at h
  · simp at h
  · split at h
    · simp at h
    next hq =>
      rw [dailyCount_resetDaily] at hq
      split at h
      · simp at h
      · omega

/-- A granted admission implies the site is not inside a temporary block
window: any recorded `blocked_until` time has already passed. -/
theorem can_make_request_not_blocked (cfg : CollectorConfig) (rl : RateLimiter) (site : String)
    (now : ℚ) (today : Nat) (h : (can_make_request cfg rl site now today).1 = true) :
    ∀ t, lookupA rl.blocked_until site = some t → t ≤ now := by
  intro t ht
  unfold can_make_request at h
  rw [ht] at h
  by_cases hlt : now < t
  · simp [hlt] at h
  · exact le_of_not_lt hlt

/-- One admission request observed by the quota tracker: a site, the wall
time of the check, whether the subsequent fetch succeeded, and the block
duration drawn on failure. -/
structure AdmissionEvent where
  site : String
  now : ℚ
  success : Bool
  block : ℚ
deriving DecidableEq

/-- Runs a sequence of admission requests within one day against the
`RateLimiter`: each request is checked with `can_make_request` and, exactly
when admitted, recorded with `record_request`.  Returns how many requests
for site `s` were admitted. -/
def admitTrace (cfg : CollectorConfig) (today : Nat) (s : String) :
    RateLimiter → List AdmissionEvent → Nat
  | _, [] => 0
  | rl, e :: rest =>
    match can_make_request cfg rl e.site e.now today with
    | (true, rl1) =>
      (if e.site = s then 1 else 0) +
        admitTrace cfg today s (record_request rl1 e.site e.success e.now today e.block) rest
    | (false, rl1) => admitTrace cfg today s rl1 rest

theorem admitTrace_le (cfg : CollectorConfig) (today : Nat) (s : String) :
    ∀ (events : List AdmissionEvent) (rl : RateLimiter),
      admitTrace cfg today s rl events ≤
        cfg.max_searches_per_site_per_day -
          min (dailyCount rl today s) cfg.max_searches_per_site_per_day := by
  intro events
  induction events with
  | nil => intro rl; simp [admitTrace]
  | cons e rest ih =>
    intro rl
    rcases hcm : can_make_request cfg rl e.site e.now today with ⟨b, rl1⟩
    have hpre : dailyCount rl1 today s = dailyCount rl today s := by
      have := dailyCount_can_make_request cfg rl e.site e.now today s
      rw [hcm] at this; exact this
    cases b with
    | false =>
      simp only [admitTrace, hcm]
      have := ih rl1
      rw [hpre] at this
      exact this
    | true =>
      have hlt : dailyCount rl today e.site < cfg.max_searches_per_site_per_day := by
        apply can_make_request_lt_limit cfg rl e.site e.now today
        rw [hcm]
      have hrest := ih (record_request rl1 e.site e.success e.now today e.block)
      have hrec := dailyCount_record_request rl1 e.site e.success e.now today e.block s
      rw [hpre] at hrec
      rw [hrec] at hrest
      by_cases hs : e.site = s
      · subst hs
        have hif : (if e.site = e.site then dailyCount rl today e.site + 1
            else dailyCount rl today e.site) = dailyCount rl today e.site + 1 := if_pos rfl
        rw [hif] at hrest
        have hmin1 : min (dailyCount rl today e.site + 1) cfg.max_searches_per_site_per_day =
            dailyCount rl today e.site + 1 := Nat.min_eq_left (by omega)
        have hmin0 : min (dailyCount rl today e.site) cfg.max_searches_per_site_per_day =
            dailyCount rl today e.site := Nat.min_eq_left (by omega)
        rw [hmin1] at hrest
        simp only [admitTrace, hcm, if_pos rfl, if_true, eq_self_iff_true, hmin0]
        omega
      · have hif : (if e.site = s then dailyCount rl today s + 1 else dailyCount rl today s) =
            dailyCount rl today s := if_neg hs
        rw [hif] at hrest
        simp only [admitTrace, hcm, if_neg hs]
        omega

/-- C1: within one day, the number of admission requests for which
`RateLimiter.can_make_request` returns true never exceeds the configured
daily limit, given that each admitted request is recorded via
`record_request`; moreover admission is granted only when the site's daily
count is below the limit and the site is not inside a temporary block
window. -/
theorem C1_quota_tracker_daily_limit (cfg : CollectorConfig) (today : Nat) (s : String)
    (events : List AdmissionEvent) :
    admitTrace cfg today s RateLimiter.init events ≤ cfg.max_searches_per_site_per_day ∧
    ∀ (rl : RateLimiter) (site : String) (now : ℚ),
      (can_make_request cfg rl site now today).1 = true →
        dailyCount rl today site < cfg.max_searches_per_site_per_day ∧
        ∀ t, lookupA rl.blocked_until site = some t → t ≤ now := by
  refine ⟨?_, fun rl site now h => ⟨can_make_request_lt_limit cfg rl site now today h,
    can_make_request_not_blocked cfg rl site now today h⟩⟩
  have hb := admitTrace_le cfg today s events RateLimiter.init
  have h0 : dailyCount RateLimiter.init today s = 0 := rfl
  rw [h0] at hb
  simpa using hb

/-- Concrete configuration used by witnesses: daily limit 2, no minimum
spacing between requests. -/
def cfgW : CollectorConfig :=
  { max_searches_per_site_per_day := 2, min_delay_between_requests := 0 }

/-- Four same-day admission requests against the same site. -/
def eventsW : List AdmissionEvent :=
  [⟨"indeed", 1, true, 0⟩, ⟨"indeed", 2, true, 0⟩, ⟨"indeed", 3, true, 0⟩,
    ⟨"indeed", 4, true, 0⟩]

/-- Witness for C1 at a concrete configuration, trace and admission query. -/
theorem C1_quota_tracker_daily_limit_witness :
    admitTrace cfgW 0 "indeed" RateLimiter.init eventsW ≤ cfgW.max_searches_per_site_per_day ∧
    (dailyCount RateLimiter.init 0 "indeed" < cfgW.max_searches_per_site_per_day ∧
      ∀ t, lookupA RateLimiter.init.blocked_until "indeed" = some t → t ≤ (20 : ℚ)) :=
  ⟨(C1_quota_tracker_daily_limit cfgW 0 "indeed" eventsW).1,
    (C1_quota_tracker_daily_limit cfgW 0 "indeed" eventsW).2 RateLimiter.init "indeed" 20
      (by norm_num [can_make_request, resetDaily, dailyCount, lookupA, zeroCounts, cfgW,
        RateLimiter.init])⟩

/-- The fields of a `job_dict` produced by `job_to_dict` that the embedded
core reads (`None` becomes `none`). -/
structure JobRec where
  title : Option String := none
  company : Option String := none
  location : Option String := none
  job_url : Option String := none
  job_hash : Option String := none
deriving DecidableEq

/-- python `str.lower`: lowercase every character. -/
def strLower (s : String) : String := ⟨s.data.map Char.toLower⟩

/-- python `str.strip`: drop leading and trailing whitespace. -/
def strStrip (s : String) : String :=
  ⟨((s.data.dropWhile Char.isWhitespace).reverse.dropWhile Char.isWhitespace).reverse⟩

/-- Normalisation applied by `JobDeduplicator.generate_job_hash` to one key
field: `str(job_dict.get(f, '') or '').lower().strip()`. -/
def normField (x : Option String) : String := strStrip (strLower (x.getD ""))

/-- The pre-hash key of `JobDeduplicator.generate_job_hash`:
`'|'.join([title, company, location])` over the normalised fields. -/
def jobKey (j : JobRec) : String :=
  String.intercalate "|" [normField j.title, normField j.company, normField j.location]

/-- `JobDeduplicator.generate_job_hash`, with `hashlib.md5(...).hexdigest()`
abstracted as the function `md5`. -/
def generate_job_hash (md5 : String → String) (j : JobRec) : String := md5 (jobKey j)

/-- The pre-hash string of `DistributedJobCollector._generate_job_hash`:
the job URL when present (python truthiness: non-empty), otherwise the raw
concatenation `f"{title}{company}{location}"`. -/
def distHashString (j : JobRec) : String :=
  if j.job_url.getD "" ≠ "" then j.job_url.getD ""
  else j.title.getD "" ++ j.company.getD "" ++ j.location.getD ""

/-- `DistributedJobCollector._generate_job_hash` with `md5` abstracted. -/
def distributed_job_hash (md5 : String → String) (j : JobRec) : String := md5 (distHashString j)

/-- The `JobDeduplicator.stats` counters relevant to accounting
(`text_savings`, a pure logging metric, is omitted). -/
structure DedupStats where
  total_found : Nat := 0
  duplicates_skipped : Nat := 0
  new_jobs_added : Nat := 0
  errors : Nat := 0
deriving DecidableEq

/-- Mutable state of the `JobDeduplicator` class. -/
structure DedupState where
  job_hashes : List String := []
  batch_jobs : List JobRec := []
  stats : DedupStats := {}
deriving DecidableEq

/-- `JobDeduplicator.__init__`. -/
def DedupState.init : DedupState := {}

/-- Outcome of the repository point lookup inside `is_duplicate`: the row
exists, it does not, or the query raised an exception. -/
inductive DbLookup
  | found
  | notFound
  | dberror
deriving DecidableEq

/-- `JobDeduplicator.is_duplicate`.  In dry-run mode the in-process hash set
is consulted; otherwise the repository is queried, and any exception makes
the function return `False`. -/
def is_duplicate (dry_run : Bool) (db : DbLookup) (st : DedupState) (job_hash : String) : Bool :=
  if dry_run then st.job_hashes.contains job_hash
  else
    match db with
    | .found => true
    | .notFound => false
    | .dberror => false

/-- `JobDeduplicator.process_batch`: bulk-insert the in-flight batch
(`bulkOk` is the outcome of the repository insert; dry-run counts as
success), crediting `new_jobs_added` on success and `errors` on failure,
then clear the batch in both cases. -/
def process_batch (bulkOk : Bool) (st : DedupState) : DedupState :=
  if st.batch_jobs.isEmpty then st
  else
    let st' :=
      if bulkOk then
        { st with stats := { st.stats with new_jobs_added :=
            st.stats.new_jobs_added + st.batch_jobs.length } }
      else
        { st with stats := { st.stats with errors := st.stats.errors + st.batch_jobs.length } }
    { st' with batch_jobs := [] }

/-- `JobDeduplicator.add_job_batch`: count the posting, fingerprint it,
either count it as a duplicate or append it to the batch, and flush the
batch when it reaches the configured size. -/
def add_job_batch (cfg : CollectorConfig) (md5 : String → String) (dry_run : Bool)
    (db : DbLookup) (bulkOk : Bool) (st : DedupState) (j : JobRec) : DedupState :=
  let st := { st with stats := { st.stats with total_found := st.stats.total_found + 1 } }
  let job_hash := generate_job_hash md5 j
  if is_duplicate dry_run db st job_hash then
    { st with stats := { st.stats with duplicates_skipped := st.stats.duplicates_skipped + 1 } }
  else
    let st := { st with
      job_hashes := if st.job_hashes.contains job_hash then st.job_hashes
                    else st.job_hashes ++ [job_hash]
      batch_jobs := st.batch_jobs ++ [{ j with job_hash := some job_hash }] }
    if cfg.batch_size ≤ st.batch_jobs.length then process_batch bulkOk st else st

/-- `JobDeduplicator.finalize`: flush any remaining partial batch. -/
def dedupFinalize (bulkOk : Bool) (st : DedupState) : DedupState :=
  if st.batch_jobs.isEmpty then st else process_batch bulkOk st

/-- Feed a sequence of postings to `add_job_batch`; each posting comes with
the outcome of its duplicate lookup and the outcome a flush triggered while
adding it would have. -/
def runDedup (cfg : CollectorConfig) (md5 : String → String) (dry_run : Bool) :
    DedupState → List (JobRec × DbLookup × Bool) → DedupState
  | st, [] => st
  | st, (j, db, ok) :: rest => runDedup cfg md5 dry_run (add_job_batch cfg md5 dry_run db ok st j) rest

/-- The accounting invariant of the deduplicator: every posting seen so far
is counted as duplicate, persisted, errored, or still sits in the in-flight
batch. -/
def dedupAccounted (st : DedupState) : Prop :=
  st.stats.total_found =
    st.stats.duplicates_skipped + st.stats.new_jobs_added + st.stats.errors +
      st.batch_jobs.length

theorem dedupAccounted_process_batch (bulkOk : Bool) (st : DedupState)
    (h : dedupAccounted st) : dedupAccounted (process_batch bulkOk st) := by
  unfold dedupAccounted at h ⊢
  unfold process_batch
  split
  · exact h
  · split <;> simp <;> omega

theorem total_found_process_batch (bulkOk : Bool) (st : DedupState) :
    (process_batch bulkOk st).stats.total_found = st.stats.total_found := by
  unfold process_batch
  split
  · rfl
  · split <;> rfl

theorem dedupAccounted_add (cfg : CollectorConfig) (md5 : String → String) (dry_run : Bool)
    (db : DbLookup) (bulkOk : Bool) (st : DedupState) (j : JobRec) (h : dedupAccounted st) :
    dedupAccounted (add_job_batch cfg md5 dry_run db bulkOk st j) := by
  unfold add_job_batch
  dsimp only
  split
  · unfold dedupAccounted at h ⊢
    simp
    omega
  · split
    · apply dedupAccounted_process_batch
      unfold dedupAccounted at h ⊢
      simp
      omega
    · unfold dedupAccounted at h ⊢
      simp
      omega

theorem total_found_add (cfg : CollectorConfig) (md5 : String → String) (dry_run : Bool)
    (db : DbLookup) (bulkOk : Bool) (st : DedupState) (j : JobRec) :
    (add_job_batch cfg md5 dry_run db bulkOk st j).stats.total_found =
      st.stats.total_found + 1 := by
  unfold add_job_batch
  dsimp only
  split
  · rfl
  · split
    · rw [total_found_process_batch]
    · rfl

theorem dedupAccounted_runDedup (cfg : CollectorConfig) (md5 : String → String) (dry_run : Bool)
    (inputs : List (JobRec × DbLookup × Bool)) (st : DedupState) (h : dedupAccounted st) :
    dedupAccounted (runDedup cfg md5 dry_run st inputs) := by
  induction inputs generalizing st with
  | nil => exact h
  | cons p rest ih =>
    exact ih _ (dedupAccounted_add cfg md5 dry_run p.2.1 p.2.2 st p.1 h)

theorem total_found_runDedup (cfg : CollectorConfig) (md5 : String → String) (dry_run : Bool)
    (inputs : List (JobRec × DbLookup × Bool)) (st : DedupState) :
    (runDedup cfg md5 dry_run st inputs).stats.total_found =
      st.stats.total_found + inputs.length := by
  induction inputs generalizing st with
  | nil => simp [runDedup]
  | cons p rest ih =>
    simp only [runDedup, ih, total_found_add, List.length_cons]
    omega

theorem batch_empty_finalize (bulkOk : Bool) (st : DedupState) :
    (dedupFinalize bulkOk st).batch_jobs = [] := by
  unfold dedupFinalize process_batch
  split
  next h => simpa using h
  next h => rfl

theorem dedupAccounted_finalize (bulkOk : Bool) (st : DedupState) (h : dedupAccounted st) :
    dedupAccounted (dedupFinalize bulkOk st) := by
  unfold dedupFinalize
  split
  · exact h
  · exact dedupAccounted_process_batch bulkOk st h

theorem total_found_finalize (bulkOk : Bool) (st : DedupState) :
    (dedupFinalize bulkOk st).stats.total_found = st.stats.total_found := by
  unfold dedupFinalize
  split
  · rfl
  · exact total_found_process_batch bulkOk st

/-- C3: every posting passed to `add_job_batch` is accounted for exactly
once after `finalize`: it was counted as a duplicate, included in a batch
insert (`new_jobs_added`), or counted as an error; the in-flight batch is
empty at the end, so nothing is silently dropped. -/
theorem C3_dedup_no_posting_dropped (cfg : CollectorConfig) (md5 : String → String)
    (dry_run : Bool) (inputs : List (JobRec × DbLookup × Bool)) (bulkOkFinal : Bool) :
    (dedupFinalize bulkOkFinal (runDedup cfg md5 dry_run DedupState.init inputs)).stats.total_found
        = inputs.length ∧
    (dedupFinalize bulkOkFinal (runDedup cfg md5 dry_run DedupState.init inputs)).stats.total_found
        = (dedupFinalize bulkOkFinal
              (runDedup cfg md5 dry_run DedupState.init inputs)).stats.duplicates_skipped +
          (dedupFinalize bulkOkFinal
              (runDedup cfg md5 dry_run DedupState.init inputs)).stats.new_jobs_added +
          (dedupFinalize bulkOkFinal
              (runDedup cfg md5 dry_run DedupState.init inputs)).stats.errors ∧
    (dedupFinalize bulkOkFinal (runDedup cfg md5 dry_run DedupState.init inputs)).batch_jobs
        = [] := by
  have hinv : dedupAccounted (dedupFinalize bulkOkFinal
      (runDedup cfg md5 dry_run DedupState.init inputs)) :=
    dedupAccounted_finalize _ _
      (dedupAccounted_runDedup cfg md5 dry_run inputs DedupState.init (by rfl))
  have hempty := batch_empty_finalize bulkOkFinal (runDedup cfg md5 dry_run DedupState.init inputs)
  have htotal : (dedupFinalize bulkOkFinal
      (runDedup cfg md5 dry_run DedupState.init inputs)).stats.total_found = inputs.length := by
    rw [total_found_finalize, total_found_runDedup]
    simp [DedupState.init]
  refine ⟨htotal, ?_, hempty⟩
  unfold dedupAccounted at hinv
  rw [hempty] at hinv
  simpa using hinv

theorem duplicates_skipped_process_batch (bulkOk : Bool) (st : DedupState) :
    (process_batch bulkOk st).stats.duplicates_skipped = st.stats.duplicates_skipped := by
  unfold process_batch
  split
  · rfl
  · split <;> rfl

/-- C10: a repository exception during the duplicate check makes
`is_duplicate` return false, so `add_job_batch` does not count the posting
as a duplicate and queues it for insertion: a storage error disables
duplicate suppression for that posting rather than suppressing storage. -/
theorem C10_db_error_disables_dedup (cfg : CollectorConfig) (md5 : String → String)
    (bulkOk : Bool) (st : DedupState) (j : JobRec) :
    is_duplicate false DbLookup.dberror st (generate_job_hash md5 j) = false ∧
    (add_job_batch cfg md5 false DbLookup.dberror bulkOk st j).stats.duplicates_skipped =
      st.stats.duplicates_skipped ∧
    (st.batch_jobs.length + 1 < cfg.batch_size →
      (add_job_batch cfg md5 false DbLookup.dberror bulkOk st j).batch_jobs =
        st.batch_jobs ++ [{ j with job_hash := some (generate_job_hash md5 j) }]) := by
  refine ⟨rfl, ?_, ?_⟩
  · unfold add_job_batch
    dsimp only
    simp only [is_duplicate, Bool.false_eq_true, if_false]
    split
    · rw [duplicates_skipped_process_batch]
    · rfl
  · intro hlen
    unfold add_job_batch
    dsimp only
    simp only [is_duplicate, Bool.false_eq_true, if_false]
    rw [if_neg (by simp; omega)]

/-- Concrete posting used by witnesses. -/
def jW : JobRec := { title := some "Engineer", company := some "Acme", location := some "NYC" }

/-- Witness for C10 at a concrete posting, empty deduplicator and the
default batch size. -/
theorem C10_db_error_disables_dedup_witness :
    is_duplicate false DbLookup.dberror DedupState.init (generate_job_hash id jW) = false ∧
    (add_job_batch {} id false DbLookup.dberror true DedupState.init jW).stats.duplicates_skipped
        = DedupState.init.stats.duplicates_skipped ∧
    (add_job_batch {} id false DbLookup.dberror true DedupState.init jW).batch_jobs =
      DedupState.init.batch_jobs ++ [{ jW with job_hash := some (generate_job_hash id jW) }] :=
  ⟨(C10_db_error_disables_dedup {} id true DedupState.init jW).1,
    (C10_db_error_disables_dedup {} id true DedupState.init jW).2.1,
    (C10_db_error_disables_dedup {} id true DedupState.init jW).2.2 (by decide)⟩

theorem string_append_right_cancel (a b c : String) (h : a ++ c = b ++ c) : a = b := by
  apply String.ext
  have hd := congrArg String.data h
  rw [String.data_append, String.data_append] at hd
  exact List.append_cancel_right hd

theorem string_append_left_cancel (a b c : String) (h : a ++ b = a ++ c) : b = c := by
  apply String.ext
  have hd := congrArg String.data h
  rw [String.data_append, String.data_append] at hd
  exact List.append_cancel_left hd

/-- When the job URL is empty, the distributed pre-hash string is the raw
field concatenation. -/
theorem distHashString_no_url (j : JobRec) (h : j.job_url.getD "" = "") :
    distHashString j = j.title.getD "" ++ j.company.getD "" ++ j.location.getD "" := by
  simp [distHashString, h]

/-- C4: the fingerprint is deterministic over normalised key fields — equal
(title, company, location) after lowercasing and trimming give equal
`generate_job_hash` for any hash function; and for postings hashed from the
key fields (no URL), changing exactly one of title, company or location
changes `_generate_job_hash`, given the injectivity idealisation of the
underlying cryptographic hash. -/
theorem C4_fingerprint_determinism_and_sensitivity :
    (∀ (md5 : String → String) (j1 j2 : JobRec),
        normField j1.title = normField j2.title →
        normField j1.company = normField j2.company →
        normField j1.location = normField j2.location →
        generate_job_hash md5 j1 = generate_job_hash md5 j2) ∧
    (∀ md5 : String → String, Function.Injective md5 →
      ∀ j1 j2 : JobRec, j1.job_url.getD "" = "" → j2.job_url.getD "" = "" →
        j1.company.getD "" = j2.company.getD "" →
        j1.location.getD "" = j2.location.getD "" →
        j1.title.getD "" ≠ j2.title.getD "" →
        distributed_job_hash md5 j1 ≠ distributed_job_hash md5 j2) ∧
    (∀ md5 : String → String, Function.Injective md5 →
      ∀ j1 j2 : JobRec, j1.job_url.getD "" = "" → j2.job_url.getD "" = "" →
        j1.title.getD "" = j2.title.getD "" →
        j1.location.getD "" = j2.location.getD "" →
        j1.company.getD "" ≠ j2.company.getD "" →
        distributed_job_hash md5 j1 ≠ distributed_job_hash md5 j2) ∧
    (∀ md5 : String → String, Function.Injective md5 →
      ∀ j1 j2 : JobRec, j1.job_url.getD "" = "" → j2.job_url.getD "" = "" →
        j1.title.getD "" = j2.title.getD "" →
        j1.company.getD "" = j2.company.getD "" →
        j1.location.getD "" ≠ j2.location.getD "" →
        distributed_job_hash md5 j1 ≠ distributed_job_hash md5 j2) := by
  refine ⟨?_, ?_, ?_, ?_⟩
  · intro md5 j1 j2 ht hc hl
    unfold generate_job_hash jobKey
    rw [ht, hc, hl]
  · intro md5 hinj j1 j2 hu1 hu2 hc hl hne heq
    apply hne
    have hs : distHashString j1 = distHashString j2 := hinj heq
    rw [distHashString_no_url j1 hu1, distHashString_no_url j2 hu2, hc, hl] at hs
    exact string_append_right_cancel _ _ _ (string_append_right_cancel _ _ _ hs)
  · intro md5 hinj j1 j2 hu1 hu2 ht hl hne heq
    apply hne
    have hs : distHashString j1 = distHashString j2 := hinj heq
    rw [distHashString_no_url j1 hu1, distHashString_no_url j2 hu2, ht, hl] at hs
    exact string_append_left_cancel _ _ _ (string_append_right_cancel _ _ _ hs)
  · intro md5 hinj j1 j2 hu1 hu2 ht hc hne heq
    apply hne
    have hs : distHashString j1 = distHashString j2 := hinj heq
    rw [distHashString_no_url j1 hu1, distHashString_no_url j2 hu2, ht, hc] at hs
    exact string_append_left_cancel _ _ _ hs

/-- Postings equal up to case and surrounding whitespace in the key fields. -/
def jW1 : JobRec :=
  { title := some "Software Engineer ", company := some " ACME", location := some "New York, NY" }

/-- Normalised twin of `jW1`. -/
def jW2 : JobRec :=
  { title := some "software engineer", company := some "acme", location := some "new york, ny" }

/-- URL-less posting differing from `jW1` only in the title. -/
def jW3 : JobRec :=
  { title := some "Data Engineer", company := some " ACME", location := some "New York, NY" }

/-- Witness for C4: the normalised twins hash alike under any hash function
(instantiated at `id`), and a one-field change flips the fallback hash for
the injective hash `id`. -/
theorem C4_fingerprint_determinism_and_sensitivity_witness :
    generate_job_hash id jW1 = generate_job_hash id jW2 ∧
    distributed_job_hash id jW1 ≠ distributed_job_hash id jW3 :=
  ⟨(C4_fingerprint_determinism_and_sensitivity).1 id jW1 jW2 (by decide) (by decide) (by decide),
    (C4_fingerprint_determinism_and_sensitivity).2.1 id (fun a b h => h) jW1 jW3
      (by decide) (by decide) (by decide) (by decide) (by decide)⟩


/-- Outcome of one `scrape_jobs` call. -/
inductive FetchOutcome
  | ok (jobs : List JobRec)
  | err
deriving DecidableEq

/-- Environment of one iteration of the `scrape_with_retry` loop: the wall
time at which it runs (after `wait_before_next_request`, which only spends
time), the fetch outcome and the block-duration draw used on failure. -/
structure AttemptEnv where
  now : ℚ
  outcome : FetchOutcome
  block : ℚ := 0
deriving DecidableEq

/-- The `for attempt in range(config.max_retries)` loop of
`scrape_with_retry`, from loop index `attempt` with `remaining` iterations
left.  Returns the result, the rate-limiter state and the number of
`scrape_jobs` calls performed: admission denial returns `None` at once; a
successful fetch records success and returns the postings; a failed fetch
records failure, and either backs off and retries (`attempt <
max_retries - 1`) or returns `None`. -/
def scrapeFrom (cfg : CollectorConfig) (today : Nat) (site : String) (env : Nat → AttemptEnv) :
    Nat → Nat → RateLimiter → Option (List JobRec) × RateLimiter × Nat
  | _, 0, rl => (none, rl, 0)
  | attempt, remaining + 1, rl =>
    match can_make_request cfg rl site (env attempt).now today with
    | (false, rl1) => (none, rl1, 0)
    | (true, rl1) =>
      match (env attempt).outcome with
      | .ok jobs =>
        (some jobs, record_request rl1 site true (env attempt).now today (env attempt).block, 1)
      | .err =>
        if attempt < cfg.max_retries - 1 then
          match scrapeFrom cfg today site env (attempt + 1) remaining
              (record_request rl1 site false (env attempt).now today (env attempt).block) with
          | (res, rl3, n) => (res, rl3, n + 1)
        else (none, record_request rl1 site false (env attempt).now today (env attempt).block, 1)

/-- `scrape_with_retry`. -/
def scrape_with_retry (cfg : CollectorConfig) (today : Nat) (rl : RateLimiter) (site : String)
    (env : Nat → AttemptEnv) : Option (List JobRec) × RateLimiter × Nat :=
  scrapeFrom cfg today site env 0 cfg.max_retries rl

theorem scrapeFrom_attempts_le (cfg : CollectorConfig) (today : Nat) (site : String)
    (env : Nat → AttemptEnv) :
    ∀ (remaining attempt : Nat) (rl : RateLimiter),
      (scrapeFrom cfg today site env attempt remaining rl).2.2 ≤ remaining := by
  intro remaining
  induction remaining with
  | zero => intro attempt rl; simp [scrapeFrom]
  | succ n ih =>
    intro attempt rl
    rcases hcm : can_make_request cfg rl site (env attempt).now today with ⟨b, rl1⟩
    cases b
    · simp [scrapeFrom, hcm]
    · cases ho : (env attempt).outcome with
      | ok jobs => simp [scrapeFrom, hcm, ho]
      | err =>
        simp only [scrapeFrom, hcm, ho]
        split
        · rcases hs : scrapeFrom cfg today site env (attempt + 1) n
              (record_request rl1 site false (env attempt).now today (env attempt).block) with
            ⟨res, rl3, m⟩
          have hm := ih (attempt + 1)
              (record_request rl1 site false (env attempt).now today (env attempt).block)
          rw [hs] at hm
          simp only [hs]
          simp at hm ⊢
          omega
        · simp

theorem scrapeFrom_all_err (cfg : CollectorConfig) (today : Nat) (site : String)
    (env : Nat → AttemptEnv) (h : ∀ k, (env k).outcome = FetchOutcome.err) :
    ∀ (remaining attempt : Nat) (rl : RateLimiter),
      (scrapeFrom cfg today site env attempt remaining rl).1 = none := by
  intro remaining
  induction remaining with
  | zero => intro attempt rl; simp [scrapeFrom]
  | succ n ih =>
    intro attempt rl
    rcases hcm : can_make_request cfg rl site (env attempt).now today with ⟨b, rl1⟩
    cases b
    · simp [scrapeFrom, hcm]
    · simp only [scrapeFrom, hcm, h attempt]
      split
      · rcases hs : scrapeFrom cfg today site env (attempt + 1) n
            (record_request rl1 site false (env attempt).now today (env attempt).block) with
          ⟨res, rl3, m⟩
        have hres := ih (attempt + 1)
            (record_request rl1 site false (env attempt).now today (env attempt).block)
        rw [hs] at hres
        simp only [hs]
        simpa using hres
      · simp

/-- A `(site, search_term, location)` combination. -/
structure Combination where
  site : String
  term : String
  loc : String
deriving DecidableEq

/-- `combination_key = f"{site}_{search_term}_{location}_{progress_key}"`. -/
def combinationKey (c : Combination) (progress_key : String) : String :=
  c.site ++ "_" ++ c.term ++ "_" ++ c.loc ++ "_" ++ progress_key

/-- State threaded through the `collect_jobs` loop. -/
structure CollectState where
  rl : RateLimiter
  dedup : DedupState
  completed : List String
deriving DecidableEq

/-- Fresh scheduler state: new rate limiter and deduplicator, empty
completed set. -/
def CollectState.init : CollectState := ⟨RateLimiter.init, DedupState.init, []⟩

/-- Feed the postings returned by a scrape to `add_job_batch`; `orc` gives
each posting its duplicate-lookup and flush outcomes. -/
def feedJobs (cfg : CollectorConfig) (md5 : String → String) (dry_run : Bool)
    (orc : JobRec → DbLookup × Bool) : DedupState → List JobRec → DedupState
  | st, [] => st
  | st, j :: rest =>
    feedJobs cfg md5 dry_run orc (add_job_batch cfg md5 dry_run (orc j).1 (orc j).2 st j) rest

/-- The body of the triple loop of `collect_jobs` for one combination:
skip it when its key is already in the completed set; otherwise scrape with
retry, feed returned postings (if any) to the deduplicator, and append the
key to the completed set — the source appends unconditionally, whatever the
scrape returned. -/
def collectCombination (cfg : CollectorConfig) (md5 : String → String) (dry_run : Bool)
    (today : Nat) (progress_key : String) (env : Nat → AttemptEnv)
    (orc : JobRec → DbLookup × Bool) (st : CollectState) (c : Combination) : CollectState :=
  if st.completed.contains (combinationKey c progress_key) then st
  else
    match scrape_with_retry cfg today st.rl c.site env with
    | (res, rl1, _) =>
      ⟨rl1,
        match res with
        | some jobs =>
          if 0 < jobs.length then feedJobs cfg md5 dry_run orc st.dedup jobs else st.dedup
        | none => st.dedup,
        st.completed ++ [combinationKey c progress_key]⟩

/-- The full `collect_jobs` iteration over a list of combinations; `envOf`
gives each combination its per-attempt environment. -/
def collectRun (cfg : CollectorConfig) (md5 : String → String) (dry_run : Bool) (today : Nat)
    (progress_key : String) (envOf : Combination → Nat → AttemptEnv)
    (orc : JobRec → DbLookup × Bool) : CollectState → List Combination → CollectState
  | st, [] => st
  | st, c :: rest =>
    collectRun cfg md5 dry_run today progress_key envOf orc
      (collectCombination cfg md5 dry_run today progress_key (envOf c) orc st c) rest

theorem contains_append_right (l : List String) (s : String) :
    (l ++ [s]).contains s = true :=
  List.elem_eq_true_of_mem (by simp)

theorem collectCombination_contains_key (cfg : CollectorConfig) (md5 : String → String)
    (dry_run : Bool) (today : Nat) (pk : String) (env : Nat → AttemptEnv)
    (orc : JobRec → DbLookup × Bool) (st : CollectState) (c : Combination) :
    (collectCombination cfg md5 dry_run today pk env orc st c).completed.contains
      (combinationKey c pk) = true := by
  unfold collectCombination
  split
  next h => exact h
  · exact contains_append_right st.completed (combinationKey c pk)

theorem collectCombination_contains_mono (cfg : CollectorConfig) (md5 : String → String)
    (dry_run : Bool) (today : Nat) (pk : String) (env : Nat → AttemptEnv)
    (orc : JobRec → DbLookup × Bool) (st : CollectState) (c : Combination) (s : String)
    (h : st.completed.contains s = true) :
    (collectCombination cfg md5 dry_run today pk env orc st c).completed.contains s = true := by
  unfold collectCombination
  split
  · exact h
  · exact List.elem_eq_true_of_mem
      (List.mem_append_left _ (List.mem_of_elem_eq_true h))

theorem collectRun_contains_mono (cfg : CollectorConfig) (md5 : String → String)
    (dry_run : Bool) (today : Nat) (pk : String) (envOf : Combination → Nat → AttemptEnv)
    (orc : JobRec → DbLookup × Bool) (combos : List Combination) :
    ∀ (st : CollectState) (s : String), st.completed.contains s = true →
      (collectRun cfg md5 dry_run today pk envOf orc st combos).completed.contains s = true := by
  induction combos with
  | nil => intro st s h; exact h
  | cons c rest ih =>
    intro st s h
    exact ih _ s (collectCombination_contains_mono cfg md5 dry_run today pk (envOf c) orc st c s h)

theorem collectRun_processes_all (cfg : CollectorConfig) (md5 : String → String)
    (dry_run : Bool) (today : Nat) (pk : String) (envOf : Combination → Nat → AttemptEnv)
    (orc : JobRec → DbLookup × Bool) (combos : List Combination) :
    ∀ (st : CollectState) (c : Combination), c ∈ combos →
      (collectRun cfg md5 dry_run today pk envOf orc st combos).completed.contains
        (combinationKey c pk) = true := by
  induction combos with
  | nil => intro st c h; simp at h
  | cons c0 rest ih =>
    intro st c h
    rcases List.mem_cons.mp h with h0 | hr
    · subst h0
      exact collectRun_contains_mono cfg md5 dry_run today pk envOf orc rest _ _
        (collectCombination_contains_key cfg md5 dry_run today pk (envOf c) orc st c)
    · exact ih _ c hr



/-- Configuration with daily quota zero: every admission request is denied.
-/
def cfg0 : CollectorConfig := { max_searches_per_site_per_day := 0 }

/-- A concrete combination. -/
def combo0 : Combination := ⟨"indeed", "software engineer", "Remote"⟩

/-- Attempt environment in which every fetch fails. -/
def envErr : Nat → AttemptEnv := fun _ => ⟨100, FetchOutcome.err, 0⟩

/-- Duplicate-lookup oracle: nothing is a duplicate, every flush succeeds.
-/
def orc0 : JobRec → DbLookup × Bool := fun _ => (DbLookup.notFound, true)

/-- C2 counterexample: with a zero daily quota, admission for the
combination is denied (`can_make_request` is false, so `scrape_with_retry`
returns `None`), yet `collect_jobs` still appends the combination key to
the completed set of the epoch — the combination is NOT left deferred for a
later retry, contradicting the claim. -/
theorem C2_counterexample_denied_marked_completed :
    (can_make_request cfg0 RateLimiter.init "indeed" 100 0).1 = false ∧
    (scrape_with_retry cfg0 0 RateLimiter.init "indeed" envErr).1 = none ∧
    (collectCombination cfg0 id false 0 "2025-09-16" envErr orc0 CollectState.init
        combo0).completed.contains (combinationKey combo0 "2025-09-16") = true ∧
    CollectState.init.completed.contains (combinationKey combo0 "2025-09-16") = false := by
  refine ⟨rfl, rfl, ?_, rfl⟩
  exact collectCombination_contains_key cfg0 id false 0 "2025-09-16" envErr orc0
    CollectState.init combo0

/-- C2 amended: after the scheduler loop processes a combination, its key
is in the completed set of the current epoch whether or not the quota/rate
check denied admission — the source appends the key unconditionally, so a
denied combination is not retried within the same epoch. -/
theorem C2_processed_combination_always_completed (cfg : CollectorConfig)
    (md5 : String → String) (dry_run : Bool) (today : Nat) (pk : String)
    (env : Nat → AttemptEnv) (orc : JobRec → DbLookup × Bool) (st : CollectState)
    (c : Combination) :
    (collectCombination cfg md5 dry_run today pk env orc st c).completed.contains
      (combinationKey c pk) = true :=
  collectCombination_contains_key cfg md5 dry_run today pk env orc st c

/-- C6: `scrape_with_retry` performs at most `max_retries` fetch attempts
for a combination; when every attempt fails it returns `None`; and the
scheduler loop still processes every combination in its list — a
combination's failure never prevents later combinations from being
processed. -/
theorem C6_retries_bounded_and_loop_proceeds (cfg : CollectorConfig) (today : Nat)
    (rl : RateLimiter) (site : String) (env : Nat → AttemptEnv) :
    (scrape_with_retry cfg today rl site env).2.2 ≤ cfg.max_retries ∧
    ((∀ k, (env k).outcome = FetchOutcome.err) →
      (scrape_with_retry cfg today rl site env).1 = none) ∧
    ∀ (md5 : String → String) (dry_run : Bool) (pk : String)
      (envOf : Combination → Nat → AttemptEnv) (orc : JobRec → DbLookup × Bool)
      (st : CollectState) (combos : List Combination) (c : Combination), c ∈ combos →
        (collectRun cfg md5 dry_run today pk envOf orc st combos).completed.contains
          (combinationKey c pk) = true := by
  refine ⟨scrapeFrom_attempts_le cfg today site env cfg.max_retries 0 rl, ?_, ?_⟩
  · intro h
    exact scrapeFrom_all_err cfg today site env h cfg.max_retries 0 rl
  · intro md5 dry_run pk envOf orc st combos c hc
    exact collectRun_processes_all cfg md5 dry_run today pk envOf orc combos st c hc

/-- Witness for C6 at a concrete configuration, all-failing environment and
a one-element combination list. -/
theorem C6_retries_bounded_and_loop_proceeds_witness :
    (scrape_with_retry cfg0 0 RateLimiter.init "indeed" envErr).2.2 ≤ cfg0.max_retries ∧
    (scrape_with_retry cfg0 0 RateLimiter.init "indeed" envErr).1 = none ∧
    (collectRun cfg0 id false 0 "2025-09-16" (fun _ => envErr) orc0 CollectState.init
        [combo0]).completed.contains (combinationKey combo0 "2025-09-16") = true :=
  ⟨(C6_retries_bounded_and_loop_proceeds cfg0 0 RateLimiter.init "indeed" envErr).1,
    (C6_retries_bounded_and_loop_proceeds cfg0 0 RateLimiter.init "indeed" envErr).2.1
      (fun _ => rfl),
    (C6_retries_bounded_and_loop_proceeds cfg0 0 RateLimiter.init "indeed" envErr).2.2
      id false "2025-09-16" (fun _ => envErr) orc0 CollectState.init [combo0] combo0
      (by simp)⟩



/-- The `site_delay` computed inside `wait_before_next_request`: the
remaining per-site spacing since the last request to that exact site. -/
def site_delay (cfg : CollectorConfig) (rl : RateLimiter) (site : String) (now : ℚ) : ℚ :=
  match lookupA rl.site_request_times site with
  | none => 0
  | some t =>
    if now - t < cfg.min_delay_between_sites then cfg.min_delay_between_sites - (now - t) else 0

/-- The delay computed by `wait_before_next_request`: `jitter` models the
`random.uniform(0.7, 1.3)` draw and `random_delay` the
`random.uniform(min_delay_between_requests, max_delay_between_requests)`
draw; the result is `max(min_delay, site_delay, random_delay)`. -/
def total_delay (cfg : CollectorConfig) (rl : RateLimiter) (site : String)
    (now jitter random_delay : ℚ) : ℚ :=
  max (cfg.min_delay_between_requests * jitter)
    (max (site_delay cfg rl site now) random_delay)

/-- The spec's phrasing of the per-site term: the (non-negative) remaining
portion of the per-site minimum spacing since the last request to this
site. -/
def remainingSiteSpacing (cfg : CollectorConfig) (rl : RateLimiter) (site : String) (now : ℚ) :
    ℚ :=
  match lookupA rl.site_request_times site with
  | none => 0
  | some t => max 0 (cfg.min_delay_between_sites - (now - t))

theorem site_delay_eq_remainingSiteSpacing (cfg : CollectorConfig) (rl : RateLimiter)
    (site : String) (now : ℚ) :
    site_delay cfg rl site now = remainingSiteSpacing cfg rl site now := by
  unfold site_delay remainingSiteSpacing
  cases hl : lookupA rl.site_request_times site with
  | none => rfl
  | some t =>
    dsimp only
    by_cases h : now - t < cfg.min_delay_between_sites
    · rw [if_pos h, max_eq_right (by linarith)]
    · rw [if_neg h, max_eq_left (by linarith)]

/-- C7: the governor's computed delay equals the largest of the three
terms described by the spec — the jittered per-request minimum spacing, the
remaining per-site spacing since the last request to that exact site, and
the randomized delay drawn from the configured range (the draws `jitter`
and `random_delay` are parameters; the equality holds for every draw, in
particular for draws inside [0.7, 1.3] and [minDelay, maxDelay]). -/
theorem C7_governor_delay_largest_of_three (cfg : CollectorConfig) (rl : RateLimiter)
    (site : String) (now jitter random_delay : ℚ) :
    total_delay cfg rl site now jitter random_delay =
      max (cfg.min_delay_between_requests * jitter)
        (max (remainingSiteSpacing cfg rl site now) random_delay) ∧
    cfg.min_delay_between_requests * jitter ≤ total_delay cfg rl site now jitter random_delay ∧
    remainingSiteSpacing cfg rl site now ≤ total_delay cfg rl site now jitter random_delay ∧
    random_delay ≤ total_delay cfg rl site now jitter random_delay ∧
    (total_delay cfg rl site now jitter random_delay =
        cfg.min_delay_between_requests * jitter ∨
      total_delay cfg rl site now jitter random_delay = remainingSiteSpacing cfg rl site now ∨
      total_delay cfg rl site now jitter random_delay = random_delay) := by
  have he : total_delay cfg rl site now jitter random_delay =
      max (cfg.min_delay_between_requests * jitter)
        (max (remainingSiteSpacing cfg rl site now) random_delay) := by
    unfold total_delay
    rw [site_delay_eq_remainingSiteSpacing]
  refine ⟨he, ?_, ?_, ?_, ?_⟩
  · rw [he]; exact le_max_left _ _
  · rw [he]; exact le_trans (le_max_left _ _) (le_max_right _ _)
  · rw [he]; exact le_trans (le_max_right _ _) (le_max_right _ _)
  · rw [he]
    rcases max_choice (cfg.min_delay_between_requests * jitter)
        (max (remainingSiteSpacing cfg rl site now) random_delay) with h1 | h1
    · exact Or.inl h1
    · rcases max_choice (remainingSiteSpacing cfg rl site now) random_delay with h2 | h2
      · exact Or.inr (Or.inl (h1.trans h2))
      · exact Or.inr (Or.inr (h1.trans h2))

/-- The backoff computed by `scrape_with_retry` on a failed attempt that
still has a retry left: `delay = exponential_backoff_base * (2 ** attempt)`
scaled by the `random.uniform(0.5, 1.5)` jitter draw. -/
def backoff_total_delay (base : ℚ) (attempt : Nat) (jitter : ℚ) : ℚ :=
  base * 2 ^ attempt * jitter

/-- Expected value of `backoff_total_delay` over the uniform jitter range
[0.5, 1.5], whose mean is (0.5 + 1.5) / 2 = 1. -/
def expected_backoff (base : ℚ) (attempt : Nat) : ℚ :=
  base * 2 ^ attempt * ((1/2 + 3/2) / 2)

/-- C8: the retry backoff equals `base * 2 ^ attempt * jitter`, and for
positive base the expected backoff (over the uniform jitter range) is
strictly increasing in the attempt number. -/
theorem C8_backoff_formula_and_expected_monotone (base : ℚ) (k : Nat) (jitter : ℚ) :
    backoff_total_delay base k jitter = base * 2 ^ k * jitter ∧
    (0 < base → expected_backoff base k < expected_backoff base (k + 1)) := by
  refine ⟨rfl, fun hb => ?_⟩
  unfold expected_backoff
  have hmean : ((1:ℚ)/2 + 3/2) / 2 = 1 := by norm_num
  rw [hmean, mul_one, mul_one, pow_succ]
  nlinarith [pow_pos (by norm_num : (0:ℚ) < 2) k]

/-- Witness for C8 at the source's default backoff base 1.5 and the first
attempt. -/
theorem C8_backoff_formula_and_expected_monotone_witness :
    backoff_total_delay (3/2) 0 1 = (3/2) * 2 ^ 0 * 1 ∧
    expected_backoff (3/2) 0 < expected_backoff (3/2) 1 :=
  ⟨(C8_backoff_formula_and_expected_monotone (3/2) 0 1).1,
    (C8_backoff_formula_and_expected_monotone (3/2) 0 1).2 (by norm_num)⟩

/-- `DistributedJobCollector._store_jobs_individually`: upsert each record
of the batch on its own (`perOk` is each record's upsert outcome), count the
successes and continue past failures. -/
def store_jobs_individually (perOk : JobRec → Bool) : List JobRec → Nat
  | [] => 0
  | j :: rest => (if perOk j then 1 else 0) + store_jobs_individually perOk rest

/-- `DistributedJobCollector._process_and_store_jobs`: attach metadata to
each posting (`preOk` marks the postings whose metadata step succeeded —
failures are skipped via `continue`), then bulk-upsert the batch; when the
bulk upsert raises (`bulkOk = false`) fall back to
`_store_jobs_individually`; the returned count is the reported stored
count. -/
def process_and_store_jobs (preOk : JobRec → Bool) (bulkOk : Bool) (perOk : JobRec → Bool)
    (jobs : List JobRec) : Nat :=
  if jobs.isEmpty then 0
  else
    if (jobs.filter preOk).isEmpty then 0
    else if bulkOk then (jobs.filter preOk).length
    else store_jobs_individually perOk (jobs.filter preOk)

theorem store_jobs_individually_eq_filter (perOk : JobRec → Bool) (l : List JobRec) :
    store_jobs_individually perOk l = (l.filter perOk).length := by
  induction l with
  | nil => rfl
  | cons j rest ih =>
    by_cases h : perOk j
    · simp [store_jobs_individually, List.filter_cons, h, ih]
      omega
    · simp [store_jobs_individually, List.filter_cons, h, ih]

/-- C9: when the bulk store of a batch fails, the flush falls back to
per-record upsert of every record of that batch, and the reported stored
count equals the number of records whose individual upsert succeeded (the
run continues with this count instead of aborting); a single bad record
cannot void the whole batch. -/
theorem C9_bulk_failure_per_record_fallback (preOk perOk : JobRec → Bool)
    (jobs : List JobRec) :
    process_and_store_jobs preOk false perOk jobs =
      ((jobs.filter preOk).filter perOk).length := by
  unfold process_and_store_jobs
  split
  next h => simp [List.isEmpty_iff.mp h]
  · split
    next h => simp [List.isEmpty_iff.mp h]
    · simp [store_jobs_individually_eq_filter]

/-- Alert thresholds (`config_manager` defaults). -/
structure AlertThresholds where
  min_daily_jobs : Nat := 100
  max_missing_company_rate : ℚ := 3/10
  max_hours_without_collection : Nat := 6
  max_error_rate : ℚ := 1/10
deriving DecidableEq

/-- The metrics `check_system_health` reads from `collect_metrics`, plus
whether the recent-jobs liveness query returned no rows. -/
structure HealthMetrics where
  total_jobs : Nat
  company_extraction_rate : ℚ
  error_rate : ℚ
  recent_jobs_empty : Bool
deriving DecidableEq

/-- A stored row of the `collection_alerts` table; the date names the
evaluation day carried by the alert id and `created_at`. -/
structure AlertRow where
  alert_type : String
  severity : String
  created_date : String
deriving DecidableEq

/-- The alerts built by `check_system_health` for one evaluation, in source
order: low daily collection, low company-extraction rate, high error rate,
and the no-recent-collection liveness check. -/
def healthAlerts (th : AlertThresholds) (m : HealthMetrics) (dateStr : String) :
    List AlertRow :=
  (if m.total_jobs < th.min_daily_jobs then [⟨"low_collection", "warning", dateStr⟩] else []) ++
  (if m.company_extraction_rate < 1 - th.max_missing_company_rate then
      [⟨"data_quality", "error", dateStr⟩] else []) ++
  (if th.max_error_rate < m.error_rate then [⟨"high_errors", "error", dateStr⟩] else []) ++
  (if m.recent_jobs_empty then [⟨"collection_stopped", "critical", dateStr⟩] else [])

/-- `MonitoringSystem._store_alert`: a plain INSERT into
`collection_alerts`. -/
def store_alert (db : List AlertRow) (a : AlertRow) : List AlertRow := db ++ [a]

/-- `MonitoringSystem.check_system_health`: build the breached-threshold
alerts and store each of them. -/
def check_system_health (th : AlertThresholds) (m : HealthMetrics) (dateStr : String)
    (db : List AlertRow) : List AlertRow :=
  (healthAlerts th m dateStr).foldl store_alert db

/-- Number of stored alert rows with the given type and date. -/
def countAlerts (db : List AlertRow) (ty dateStr : String) : Nat :=
  (db.filter (fun r => r.alert_type == ty && r.created_date == dateStr)).length

theorem check_system_health_eq_append (th : AlertThresholds) (m : HealthMetrics)
    (dateStr : String) (db : List AlertRow) :
    check_system_health th m dateStr db = db ++ healthAlerts th m dateStr := by
  unfold check_system_health
  generalize healthAlerts th m dateStr = l
  induction l generalizing db with
  | nil => simp
  | cons a rest ih => simp [store_alert, ih]

theorem countAlerts_append (d1 d2 : List AlertRow) (ty dateStr : String) :
    countAlerts (d1 ++ d2) ty dateStr = countAlerts d1 ty dateStr + countAlerts d2 ty dateStr := by
  simp [countAlerts, List.filter_append]

/-- Default thresholds. -/
def thW : AlertThresholds := {}

/-- Metrics breaching exactly the daily-collection threshold. -/
def mW : HealthMetrics :=
  { total_jobs := 0, company_extraction_rate := 1, error_rate := 0, recent_jobs_empty := false }

/-- C5 counterexample: running `check_system_health` twice on the same date
with the same breached threshold stores two `low_collection` rows for that
date, not at most one — `_store_alert` inserts unconditionally, with no
(type, date) upsert. -/
theorem C5_counterexample_duplicate_alert_rows :
    ¬ countAlerts (check_system_health thW mW "20250916"
        (check_system_health thW mW "20250916" [])) "low_collection" "20250916" ≤ 1 := by
  have h : healthAlerts thW mW "20250916" =
      [⟨"low_collection", "warning", "20250916"⟩] := by
    unfold healthAlerts thW mW
    norm_num
  rw [check_system_health_eq_append, check_system_health_eq_append, h]
  decide

/-- C5 amended: each health-check evaluation appends one fresh Alert row
per breached threshold — `_store_alert` is a plain insert keyed by nothing,
so re-evaluating within the same date doubles the rows per breached
(type, date) instead of keeping at most one. -/
theorem C5_amended_health_check_inserts_each_run (th : AlertThresholds) (m : HealthMetrics)
    (dateStr : String) (db : List AlertRow) (ty : String) :
    check_system_health th m dateStr db = db ++ healthAlerts th m dateStr ∧
    countAlerts (check_system_health th m dateStr (check_system_health th m dateStr db)) ty
        dateStr =
      countAlerts db ty dateStr + 2 * countAlerts (healthAlerts th m dateStr) ty dateStr := by
  refine ⟨check_system_health_eq_append th m dateStr db, ?_⟩
  rw [check_system_health_eq_append, check_system_health_eq_append, countAlerts_append,
    countAlerts_append]
  omega


end GetWork
